import Mathlib

/-!
Verification of the ec2-instance-controls command resolution and validation
engine.  The Python sources (`src/aws_client.py`, `src/handlers.py`,
`src/schedule.py`) are shallowly embedded: instance metadata becomes a list of
key/value tags, the AWS tag store is passed explicitly, and every Python
string operation is re-implemented structurally over `String.data` so that the
definitions evaluate inside the kernel.
-/

/-! ### Python string primitives

Python `str` operations used by the sources, modelled over `String.data` with
structural recursion (ASCII case mapping, which covers every string the
engine compares: tag values, lifecycle states, command words). -/

/-- ASCII lower-casing of one character, as Python `str.lower` acts on ASCII. -/
def py_char_lower (c : Char) : Char :=
  if 'A'.toNat ≤ c.toNat ∧ c.toNat ≤ 'Z'.toNat then Char.ofNat (c.toNat + 32) else c

/-- Python `str.lower` (ASCII fragment). -/
def py_lower (s : String) : String := ⟨s.data.map py_char_lower⟩

/-- Strip leading and trailing whitespace from a character list. -/
def chars_strip (l : List Char) : List Char :=
  ((l.dropWhile Char.isWhitespace).reverse.dropWhile Char.isWhitespace).reverse

/-- Python `str.strip()` with no argument. -/
def py_strip (s : String) : String := ⟨chars_strip s.data⟩

/-- Python `str.startswith`. -/
def py_startswith (s pre : String) : Bool := pre.data.isPrefixOf s.data

/-- Python `str.endswith`. -/
def py_endswith (s suf : String) : Bool := suf.data.reverse.isPrefixOf s.data.reverse

/-- Does the character list `needle` occur contiguously inside `hay`?
Models Python's `needle in hay` on strings. -/
def chars_is_sub (needle : List Char) : List Char → Bool
  | [] => needle.isPrefixOf []
  | c :: rest => needle.isPrefixOf (c :: rest) || chars_is_sub needle rest

/-- Python `c in s` for a single character `c`. -/
def py_contains_char (s : String) (c : Char) : Bool := s.data.any (fun d => d == c)

/-- Python `str.split(sep)` for a one-character separator. -/
def split_on_char (c : Char) : List Char → List (List Char)
  | [] => [[]]
  | x :: xs =>
    match split_on_char c xs with
    | [] => [[]]
    | h :: t => if x == c then [] :: h :: t else (x :: h) :: t

/-- Python `sep.join(parts)` for the one-character separator `,`. -/
def join_comma (parts : List String) : String := ⟨List.intercalate [','] (parts.map String.data)⟩

/-- Is `c` an ASCII digit? -/
def is_digit_char (c : Char) : Bool := '0'.toNat ≤ c.toNat && c.toNat ≤ '9'.toNat

/-- Numeric value of a non-empty all-digit character list. -/
def chars_nat_val (l : List Char) : Nat :=
  l.foldl (fun acc c => acc * 10 + (c.toNat - '0'.toNat)) 0

/-- Parse a decimal numeral: `some` exactly when the list is non-empty and
all digits (the digit fields `dateutil` accepts inside a time string). -/
def digits_nat? (l : List Char) : Option Nat :=
  if l ≠ [] ∧ l.all is_digit_char then some (chars_nat_val l) else none

/-- Drop the last `n` characters (Python `s[:-n]`). -/
def chars_drop_right (l : List Char) (n : Nat) : List Char := l.take (l.length - n)

/-- Keep the last `n` characters (Python `s[-n:]`). -/
def chars_take_right (l : List Char) (n : Nat) : List Char := l.drop (l.length - n)

/-! ### Data model

An EC2 instance as the engine consults it: its id, its lifecycle state and its
tag list (`aws_client.py` reads instances as dicts with `InstanceId`,
`State.Name` and `Tags`).  AWS tag keys are unique per instance. -/

structure Ec2Tag where
  key : String
  value : String
deriving DecidableEq

structure Ec2Instance where
  instanceId : String
  state : String
  tags : List Ec2Tag
deriving DecidableEq

/-- First tag with the given key, as every tag-scanning loop in
`aws_client.py` reads it (`for tag in tags: if tag['Key'] == k: ...`). -/
def find_tag (tags : List Ec2Tag) (k : String) : Option String :=
  (tags.find? (fun t => t.key == k)).map (fun t => t.value)

/-- The non-terminated lifecycle states every instance listing is filtered to
(`'instance-state-name': ['pending', 'running', 'stopping', 'stopped']`). -/
def VALID_LIFECYCLE_STATES : List String := ["pending", "running", "stopping", "stopped"]

/-! ### Controllability Gate — `aws_client.can_control_instance` -/

/-- The falsy spellings blocklist from `can_control_instance`. -/
def FALSY_TAG_VALUES : List String := ["false", "0", "no", "disabled", "off"]

/-- Embeds `aws_client.can_control_instance`.  The argument is `none` when the
instance is missing or has no `Tags` entry (`if not instance or 'Tags' not in
instance: return False`); otherwise the loop returns, at the first
`EC2ControlsEnabled` tag, `True` exactly when the value is non-empty and its
lower-casing is not in the blocklist, and `False` when no such tag exists. -/
def can_control_instance (inst : Option (List Ec2Tag)) : Bool :=
  match inst with
  | none => false
  | some tags =>
    match tags.find? (fun t => t.key == "EC2ControlsEnabled") with
    | some t =>
      if t.value ≠ "" ∧ ¬ (FALSY_TAG_VALUES.contains (py_lower t.value) = true) then true
      else false
    | none => false

/-! ### Identifier Resolver — `aws_client.get_instance_by_name`,
`aws_client.resolve_instance_identifier`, `handlers._is_valid_instance_id` -/

/-- Outcome a name lookup records in its audit log: the single id found,
`no_controllable_instances_found`, or `multiple_controllable_instances_found`
with the candidate ids. -/
inductive NameLookupOutcome where
  | found (instanceId : String)
  | noneFound
  | multipleFound (instanceIds : List String)
deriving DecidableEq

/-- The instance list `get_instance_by_name` assembles: the provider query
filters on an exact `Name` tag and a non-terminated lifecycle state, and the
loop keeps only instances passing the Controllability Gate. -/
def controllable_name_matches (env : List Ec2Instance) (name : String) : List Ec2Instance :=
  env.filter (fun i =>
    find_tag i.tags "Name" == some name
    && VALID_LIFECYCLE_STATES.contains i.state
    && can_control_instance (some i.tags))

/-- Embeds `aws_client.get_instance_by_name` over an explicit provider
environment `env`: exactly one controllable match returns its id, zero or
several return no id, each branch recording its distinct audit outcome. -/
def get_instance_by_name (env : List Ec2Instance) (name : String) :
    Option String × NameLookupOutcome :=
  match controllable_name_matches env name with
  | [i] => (some i.instanceId, NameLookupOutcome.found i.instanceId)
  | [] => (none, NameLookupOutcome.noneFound)
  | i :: j :: rest =>
    (none, NameLookupOutcome.multipleFound ((i :: j :: rest).map (fun k => k.instanceId)))

/-- Embeds `aws_client.resolve_instance_identifier`.  The second component
records whether a name lookup was performed: a token starting with `i-` is
returned directly with no lookup, anything else goes through
`get_instance_by_name`. -/
def resolve_instance_identifier (env : List Ec2Instance) (identifier : String) :
    Option String × Bool :=
  if py_startswith identifier "i-" then (some identifier, false)
  else ((get_instance_by_name env identifier).1, true)

/-- Is `c` a lower-case hexadecimal digit? -/
def is_hex_digit (c : Char) : Bool :=
  is_digit_char c || ('a'.toNat ≤ c.toNat && c.toNat ≤ 'f'.toNat)

/-- Embeds `handlers._is_valid_instance_id`: the regular expression
`^i-[0-9a-f]{8}$|^i-[0-9a-f]{17}$`. -/
def _is_valid_instance_id (instance_id : String) : Bool :=
  py_startswith instance_id "i-"
  && (let rest := instance_id.data.drop 2
      (rest.length == 8 || rest.length == 17) && rest.all is_hex_digit)

/-! ### Power State Machine — `aws_client.start_instance` and the
failure replies of `handlers.handle_ec2_power` -/

/-- Result of the validation prefix of `aws_client.start_instance`: either
the request is refused before the provider is called, with the audit-log
error code of the refusing branch, or validation passes and
`start_instances` is issued. -/
inductive StartCheck where
  | reject (reason : String)
  | proceed
deriving DecidableEq

/-- Embeds the precondition chain of `aws_client.start_instance`: the
Controllability Gate, then the freshly read lifecycle state (`none` when the
state could not be determined), then the per-state validation.  The provider
call is issued only in the `proceed` case. -/
def start_instance_check (controllable : Bool) (state : Option String) : StartCheck :=
  if controllable = false then StartCheck.reject "instance_not_controllable"
  else
    match state with
    | none => StartCheck.reject "state_unknown"
    | some s =>
      if s = "running" then StartCheck.reject "already_running"
      else if s = "pending" then StartCheck.reject "already_starting"
      else if s = "stopping" then StartCheck.reject "currently_stopping"
      else if ¬ (s ∈ ["stopped"]) then StartCheck.reject "invalid_state_for_start"
      else StartCheck.proceed

/-- Embeds the per-state user reply `handlers.handle_ec2_power` selects when
`start_instance` fails for a power-on request: a pure function of the
observed state (and the display strings). -/
def power_on_failure_reply (display_name instance_id current_state : String) : String :=
  if current_state = "running" then
    "`" ++ display_name ++ "` (" ++ instance_id ++ ") is " ++ "already running"
  else if current_state = "pending" then
    "`" ++ display_name ++ "` (" ++ instance_id ++ ") is " ++ "already starting"
  else if current_state = "stopping" then
    "Cannot start " ++ "`" ++ display_name ++ "` (" ++ instance_id ++ ") - instance is "
      ++ "currently stopping"
  else if current_state = "stopped" then
    "Failed to start `" ++ display_name ++ "` (" ++ instance_id ++ ") - please try again"
  else
    "Cannot start `" ++ display_name ++ "` (" ++ instance_id ++ ") - instance is in an invalid state ("
      ++ current_state ++ ")"

/-! ### Time parsing — `schedule.parse_time`, `schedule.format_time_for_tag` -/

/-- Time of day as Python's `datetime.time` carries it here: hour and minute. -/
structure TimeOfDay where
  hour : Nat
  minute : Nat
deriving DecidableEq

/-- Python `datetime.time` comparison `a < b` (lexicographic on hour then
minute; the engine never sets seconds). -/
def time_lt (a b : TimeOfDay) : Bool :=
  if a.hour < b.hour then true
  else if b.hour < a.hour then false
  else decide (a.minute < b.minute)

/-- Python `datetime.time` comparison `a >= b`. -/
def time_ge (a b : TimeOfDay) : Bool := ! time_lt a b

/-- Models the call `dateutil.parser.parse(time_str).time()` on the
time-of-day strings this engine feeds it: an `H:MM`-shaped body with an
optional `am`/`pm` suffix (the caller has already lower-cased and, for
colon-less short forms, inserted `:00`).  The parse raises — modelled as
`none` — on a malformed body, an out-of-range field (hour above 23 or minute
above 59, hour outside 1–12 with a meridian), exactly as the library does;
`12am` is midnight and `12pm` is noon. -/
def dateutil_parse_time (s : String) : Option TimeOfDay :=
  let body_mer : List Char × Option Bool :=
    if py_endswith s "am" then (chars_drop_right s.data 2, some false)
    else if py_endswith s "pm" then (chars_drop_right s.data 2, some true)
    else (s.data, none)
  match split_on_char ':' body_mer.1 with
  | [hs, ms] =>
    match digits_nat? (chars_strip hs), digits_nat? (chars_strip ms) with
    | some h, some m =>
      match body_mer.2 with
      | none => if h ≤ 23 ∧ m ≤ 59 then some ⟨h, m⟩ else none
      | some is_pm =>
        if 1 ≤ h ∧ h ≤ 12 ∧ m ≤ 59 then
          some ⟨if is_pm then (if h = 12 then 12 else h + 12)
                else (if h = 12 then 0 else h), m⟩
        else none
    | _, _ => none
  | _ => none

/-- Embeds `schedule.parse_time`.  `none` as input stands for Python `None`.
Empty or whitespace-only input is rejected; the input is stripped and
lower-cased; a colon-less `am`/`pm` form of at most four characters gets
`:00` inserted (`5am` → `5:00am`); the result of the library parse is then
bounds-checked (a dead check — the library already rejects those values). -/
def parse_time (time_str : Option String) : Option TimeOfDay :=
  match time_str with
  | none => none
  | some raw =>
    if py_strip raw = "" then none
    else
      let t := py_lower (py_strip raw)
      let t' :=
        if (py_endswith t "am" || py_endswith t "pm")
            && ! py_contains_char t ':' && t.length ≤ 4 then
          (⟨chars_drop_right t.data 2 ++ [':', '0', '0'] ++ chars_take_right t.data 2⟩ : String)
        else t
      match dateutil_parse_time t' with
      | none => none
      | some tod => if tod.hour > 23 ∨ tod.minute > 59 then none else some tod

/-- Embeds `schedule.format_time_for_tag` on a present time:
`time.strftime('%H:%M')`, both fields zero-padded to two digits. -/
def format_time_for_tag (t : TimeOfDay) : String :=
  ⟨[Char.ofNat ('0'.toNat + t.hour / 10), Char.ofNat ('0'.toNat + t.hour % 10), ':',
    Char.ofNat ('0'.toNat + t.minute / 10), Char.ofNat ('0'.toNat + t.minute % 10)]⟩

/-! ### Tag store operations — `create_tags` (upsert) and `delete_tags` -/

/-- An AWS `create_tags` upsert of one tag: replace the value under an
existing key, otherwise append the tag. -/
def upsert_tag (store : List Ec2Tag) (t : Ec2Tag) : List Ec2Tag :=
  if store.any (fun u => u.key == t.key) then
    store.map (fun u => if u.key == t.key then t else u)
  else store ++ [t]

/-- An AWS `delete_tags` of one key: every tag under that key is removed. -/
def delete_tag (store : List Ec2Tag) (k : String) : List Ec2Tag :=
  store.filter (fun t => t.key != k)

/-! ### Schedule Manager — `schedule.set_schedule`, `schedule.get_schedule`
and the schedule-set path of `handlers.handle_ec2_schedule` -/

/-- Embeds `aws_client.set_power_schedule_tags` with both times present:
both reserved keys are upserted by one `create_tags` call. -/
def set_power_schedule_tags (store : List Ec2Tag) (on_time off_time : String) : List Ec2Tag :=
  upsert_tag (upsert_tag store ⟨"PowerScheduleOnTime", on_time⟩)
    ⟨"PowerScheduleOffTime", off_time⟩

/-- Embeds `schedule.set_schedule` on parsed times: the Controllability Gate
is re-checked, then both tags are written (the provider write is modelled as
succeeding; its formatted strings are never empty, so the
`invalid_time_format` branch is unreachable here). -/
def set_schedule (store : List Ec2Tag) (start_time stop_time : TimeOfDay) :
    Bool × List Ec2Tag :=
  if can_control_instance (some store) = false then (false, store)
  else
    (true,
      set_power_schedule_tags store (format_time_for_tag start_time)
        (format_time_for_tag stop_time))

/-- Python `strftime('%I:%M %p').lstrip('0')`: 12-hour display form. -/
def format_time_display (t : TimeOfDay) : String :=
  let h12 := if t.hour % 12 = 0 then 12 else t.hour % 12
  let ampm := if t.hour < 12 then " AM" else " PM"
  ⟨([Char.ofNat ('0'.toNat + h12 / 10), Char.ofNat ('0'.toNat + h12 % 10), ':',
      Char.ofNat ('0'.toNat + t.minute / 10),
      Char.ofNat ('0'.toNat + t.minute % 10)].dropWhile (fun c => c == '0')) ++ ampm.data⟩

/-- Embeds the schedule-set path of `handlers.handle_ec2_schedule` after both
time strings parsed: the strict-ordering check rejects `start >= stop` naming
both supplied strings, then the Controllability Gate is checked, then
`set_schedule` runs.  Returns the user reply and the instance's tag store. -/
def handle_ec2_schedule_set (store : List Ec2Tag)
    (display_name instance_id start_time_str stop_time_str : String)
    (start_time stop_time : TimeOfDay) : String × List Ec2Tag :=
  if time_ge start_time stop_time then
    ("Invalid schedule: start time (" ++ start_time_str ++ ") must be before end time ("
        ++ stop_time_str ++ "). " ++ "Cross-midnight schedules are not supported.", store)
  else if can_control_instance (some store) = false then
    ("Instance `" ++ display_name ++ "` (" ++ instance_id
        ++ ") cannot be controlled by this service. Add the `EC2ControlsEnabled` tag with a truthy value to enable control.",
      store)
  else
    match set_schedule store start_time stop_time with
    | (true, store') =>
      ("Schedule set for `" ++ display_name ++ "` (" ++ instance_id ++ "): "
          ++ format_time_display start_time ++ " to " ++ format_time_display stop_time,
        store')
    | (false, store') =>
      ("Failed to set schedule for `" ++ display_name ++ "` (" ++ instance_id ++ ")", store')

/-- Embeds `aws_client.get_power_schedule_tags`: the values stored under the
two reserved schedule keys. -/
def get_power_schedule_tags (store : List Ec2Tag) : Option String × Option String :=
  (find_tag store "PowerScheduleOnTime", find_tag store "PowerScheduleOffTime")

/-- The dict `schedule.get_schedule` builds: each field is present exactly
when its source key was present and re-parsed. -/
structure ScheduleDict where
  start_time : Option String
  stop_time : Option String
deriving DecidableEq

/-- One field of `get_schedule`: a stored value that re-parses is normalised
back through `format_time_for_tag`; a missing or unparseable value is
dropped. -/
def schedule_time_roundtrip (v : Option String) : Option String :=
  v.bind (fun raw => (parse_time (some raw)).map format_time_for_tag)

/-- Embeds `schedule.get_schedule`: `none` only when the tag dict is empty
(`if not schedule_tags`), i.e. when both keys are missing; otherwise each
present key contributes its field exactly when its value re-parses. -/
def get_schedule (store : List Ec2Tag) : Option ScheduleDict :=
  let tags := get_power_schedule_tags store
  if tags.1 = none ∧ tags.2 = none then none
  else some ⟨schedule_time_roundtrip tags.1, schedule_time_roundtrip tags.2⟩

/-! ### Stakeholder Registry — `aws_client.add_stakeholder`,
`aws_client.remove_stakeholder` -/

/-- Embeds `aws_client.get_stakeholders_tag`: the raw delimited string. -/
def get_stakeholders_tag (store : List Ec2Tag) : Option String :=
  find_tag store "Stakeholders"

/-- The list comprehension `[s.strip() for s in str.split(',') if s.strip()]`
both stakeholder operations use to parse the stored string. -/
def parse_stakeholders (s : String) : List String :=
  ((split_on_char ',' s.data).map (fun cs => (⟨chars_strip cs⟩ : String))).filter
    (fun x => x != "")

/-- The `current_stakeholders` list both operations start from: empty when
the tag is missing or holds a falsy (empty) string. -/
def current_stakeholders (store : List Ec2Tag) : List String :=
  match get_stakeholders_tag store with
  | some s => if s ≠ "" then parse_stakeholders s else []
  | none => []

/-- Embeds `aws_client.set_stakeholders_tag`: the list is joined with commas
and upserted under the `Stakeholders` key. -/
def set_stakeholders_tag (store : List Ec2Tag) (stakeholders_list : List String) :
    List Ec2Tag :=
  upsert_tag store ⟨"Stakeholders", join_comma stakeholders_list⟩

/-- Embeds `aws_client.delete_stakeholders_tag`. -/
def delete_stakeholders_tag (store : List Ec2Tag) : List Ec2Tag :=
  delete_tag store "Stakeholders"

/-- Embeds `aws_client.add_stakeholder`: the `(success, action)` pair it
returns together with the resulting tag store.  `write_ok` stands for the
provider accepting the `create_tags` call. -/
def add_stakeholder (store : List Ec2Tag) (user_id : String) (write_ok : Bool) :
    (Bool × String) × List Ec2Tag :=
  let cur := current_stakeholders store
  if cur.contains user_id then ((true, "already_stakeholder"), store)
  else if 10 ≤ cur.length then ((false, "max_limit_reached"), store)
  else if write_ok then ((true, "added"), set_stakeholders_tag store (cur ++ [user_id]))
  else ((false, "failed"), store)

/-- Embeds `aws_client.remove_stakeholder`: removing the last member deletes
the tag entirely instead of writing an empty value. -/
def remove_stakeholder (store : List Ec2Tag) (user_id : String) (write_ok : Bool) :
    (Bool × String) × List Ec2Tag :=
  let cur := current_stakeholders store
  if ! cur.contains user_id then ((true, "not_stakeholder"), store)
  else
    let remaining := cur.filter (fun s => s != user_id)
    if remaining = [] then
      if write_ok then ((true, "removed_and_deleted_tag"), delete_stakeholders_tag store)
      else ((false, "failed"), store)
    else
      if write_ok then ((true, "removed"), set_stakeholders_tag store remaining)
      else ((false, "failed"), store)

/-! ### Alias normalization — `handlers.normalize_command`,
`handlers.ACTION_ALIASES_POWER` -/

/-- Embeds `handlers.ACTION_ALIASES_POWER` (a dict of sets; Python iterates
it in insertion order, and only membership of the sets is consulted). -/
def ACTION_ALIASES_POWER : List (String × List String) :=
  [("on", ["on", "start", "up", "boot", "poweron", "enable"]),
   ("off", ["off", "stop", "down", "halt", "shutdown", "poweroff"]),
   ("restart", ["restart", "reboot", "bounce", "cycle", "reload"])]

/-- Embeds `handlers.normalize_command`: the input is lower-cased, the first
alias-map entry whose canonical value or alias set matches wins, and with no
match the lower-cased input is returned. -/
def normalize_command (value : String) (alias_map : List (String × List String)) : String :=
  let v := py_lower value
  match alias_map.find? (fun p => v == p.1 || p.2.contains v) with
  | some p => p.1
  | none => v

/-! ### Fuzzy Search Ranker — `aws_client.fuzzy_search_instances`

Python's `list.sort(key=...)` is a stable sort by the key tuple
`(match rank, lowered name, lowered id)` compared lexicographically; it is
modelled by a stable insertion sort under the decidable linear order on
`Lex (Nat × Lex (List Nat × List Nat))`, strings entering as their code-point
lists. -/

def ordered_insert {α : Type} (le : α → α → Bool) (a : α) : List α → List α
  | [] => [a]
  | b :: l => if le a b then a :: b :: l else b :: ordered_insert le a l

def insertion_sort {α : Type} (le : α → α → Bool) : List α → List α
  | [] => []
  | a :: l => ordered_insert le a (insertion_sort le l)

/-- Embeds `aws_client.get_all_instances`: the region listing filtered to the
non-terminated states. -/
def get_all_instances (env : List Ec2Instance) : List Ec2Instance :=
  env.filter (fun i => VALID_LIFECYCLE_STATES.contains i.state)

/-- Embeds `aws_client.get_controllable_instances`. -/
def get_controllable_instances (env : List Ec2Instance) : List Ec2Instance :=
  (get_all_instances env).filter (fun i => can_control_instance (some i.tags))

/-- One entry of the fuzzy-search result list
(`{'InstanceId': ..., 'Name': ..., 'State': ...}`). -/
structure SearchResult where
  instanceId : String
  name : Option String
  state : String
deriving DecidableEq

/-- The matching loop of `fuzzy_search_instances`: a controllable instance
matches when the lowered term is a substring of its lowered id, or of its
lowered name when one is present. -/
def fuzzy_matches (env : List Ec2Instance) (term_lower : String) : List SearchResult :=
  (get_controllable_instances env).filterMap (fun i =>
    let nm := find_tag i.tags "Name"
    if chars_is_sub term_lower.data (py_lower i.instanceId).data then
      some ⟨i.instanceId, nm, i.state⟩
    else
      match nm with
      | some n =>
        if chars_is_sub term_lower.data (py_lower n).data then
          some ⟨i.instanceId, nm, i.state⟩
        else none
      | none => none)

/-- First component of `sort_key` in `fuzzy_search_instances`: 0 for an exact
id or name match, 1 for a prefix match, 2 otherwise. -/
def fuzzy_rank (term_lower : String) (r : SearchResult) : Nat :=
  let iid := py_lower r.instanceId
  let nm := py_lower (r.name.getD "")
  if term_lower = iid ∨ term_lower = nm then 0
  else if py_startswith iid term_lower || py_startswith nm term_lower then 1
  else 2

/-- A string as its code-point list, the order Python compares strings in. -/
def chars_key (s : String) : List Nat := s.data.map Char.toNat

/-- The full `sort_key` tuple `(rank, lowered name or '', lowered id)` under
the lexicographic order. -/
def fuzzy_sort_key (term_lower : String) (r : SearchResult) :
    Lex (Nat × Lex (List Nat × List Nat)) :=
  toLex (fuzzy_rank term_lower r,
    toLex (chars_key (py_lower (r.name.getD "")), chars_key (py_lower r.instanceId)))

/-- The comparison `list.sort` applies between two results. -/
def fuzzy_le (term_lower : String) (a b : SearchResult) : Bool :=
  decide (fuzzy_sort_key term_lower a ≤ fuzzy_sort_key term_lower b)

/-- Embeds `aws_client.fuzzy_search_instances`: lower the term once, collect
the matches, sort them by `sort_key`, and truncate to at most 10 results. -/
def fuzzy_search_instances (env : List Ec2Instance) (search_term : String) :
    List SearchResult :=
  let tl := py_lower search_term
  let sorted := insertion_sort (fuzzy_le tl) (fuzzy_matches env tl)
  if 10 < sorted.length then sorted.take 10 else sorted

/-! ## Theorems -/

/-- C1: the Controllability Gate returns false when the `EC2ControlsEnabled`
tag is absent (including a missing instance or `Tags` entry) or its value is
the empty string, returns false when the lower-cased value is one of exactly
`false`, `0`, `no`, `disabled`, `off`, and returns true for every other
non-empty value. -/
theorem controllability_gate_spec :
    can_control_instance none = false
    ∧ (∀ tags : List Ec2Tag,
        tags.find? (fun t => t.key == "EC2ControlsEnabled") = none →
          can_control_instance (some tags) = false)
    ∧ (∀ (tags : List Ec2Tag) (t : Ec2Tag),
        tags.find? (fun t => t.key == "EC2ControlsEnabled") = some t →
          (can_control_instance (some tags) = true ↔
            (t.value ≠ "" ∧ FALSY_TAG_VALUES.contains (py_lower t.value) = false))) := by
  refine ⟨rfl, ?_, ?_⟩
  · intro tags h
    simp [can_control_instance, h]
  · intro tags t h
    simp only [can_control_instance, h]
    constructor
    · intro hc
      by_cases hv : t.value = ""
      · simp [hv] at hc
      · by_cases hf : FALSY_TAG_VALUES.contains (py_lower t.value) = true
        · have hm : py_lower t.value ∈ FALSY_TAG_VALUES := by simpa using hf
          simp [hv, hm] at hc
        · exact ⟨hv, by simpa using hf⟩
    · intro ⟨hv, hf⟩
      have hm : py_lower t.value ∉ FALSY_TAG_VALUES := by simpa using hf
      simp [hv, hm]

/-- Witness: `controllability_gate_spec` applied to a concrete tag list
carrying `EC2ControlsEnabled = "True"`. -/
theorem controllability_gate_spec_witness :
    can_control_instance (some [⟨"EC2ControlsEnabled", "True"⟩]) = true :=
  (controllability_gate_spec.2.2 [⟨"EC2ControlsEnabled", "True"⟩]
    ⟨"EC2ControlsEnabled", "True"⟩ (by decide)).mpr (by decide)

/-- C3: for a token that is not ID-shaped the resolver performs the name
lookup, and that lookup returns the single controllable match's id when
exactly one instance matches, no id with the `noneFound` audit outcome when
none does, and no id (never one of the candidates) with the distinct
`multipleFound` audit outcome when several do. -/
theorem name_resolution_spec :
    ∀ (env : List Ec2Instance) (token : String),
      py_startswith token "i-" = false →
        (resolve_instance_identifier env token = ((get_instance_by_name env token).1, true))
        ∧ (controllable_name_matches env token = [] →
            get_instance_by_name env token = (none, NameLookupOutcome.noneFound))
        ∧ (∀ i : Ec2Instance, controllable_name_matches env token = [i] →
            get_instance_by_name env token
              = (some i.instanceId, NameLookupOutcome.found i.instanceId))
        ∧ (2 ≤ (controllable_name_matches env token).length →
            (get_instance_by_name env token).1 = none
            ∧ (get_instance_by_name env token).2
                = NameLookupOutcome.multipleFound
                    ((controllable_name_matches env token).map (fun k => k.instanceId))
            ∧ (∀ ids : List String,
                NameLookupOutcome.multipleFound ids ≠ NameLookupOutcome.noneFound)) := by
  intro env token htok
  refine ⟨?_, ?_, ?_, ?_⟩
  · simp [resolve_instance_identifier, htok]
  · intro h
    unfold get_instance_by_name
    rw [h]
  · intro i h
    unfold get_instance_by_name
    rw [h]
  · intro h
    rcases hm : controllable_name_matches env token with _ | ⟨a, _ | ⟨b, t⟩⟩
    · rw [hm] at h; simp at h
    · rw [hm] at h; simp at h
    · unfold get_instance_by_name
      rw [hm]
      exact ⟨rfl, rfl, fun ids => by simp⟩

/-- Witness: `name_resolution_spec` on an environment holding two
controllable instances both named `db`; the lookup returns no id. -/
theorem name_resolution_spec_witness :
    (get_instance_by_name
      [⟨"i-aaaaaaaa", "running", [⟨"Name", "db"⟩, ⟨"EC2ControlsEnabled", "true"⟩]⟩,
       ⟨"i-bbbbbbbb", "stopped", [⟨"Name", "db"⟩, ⟨"EC2ControlsEnabled", "yes"⟩]⟩]
      "db").1 = none :=
  ((name_resolution_spec
      [⟨"i-aaaaaaaa", "running", [⟨"Name", "db"⟩, ⟨"EC2ControlsEnabled", "true"⟩]⟩,
       ⟨"i-bbbbbbbb", "stopped", [⟨"Name", "db"⟩, ⟨"EC2ControlsEnabled", "yes"⟩]⟩]
      "db" (by decide)).2.2.2 (by decide)).1

/-- C10: every token beginning with `i-` is returned unchanged with no name
lookup, even tokens rejected by the unused stricter format validator such as
`i-prod-db`; consequently a name beginning with `i-` is never looked up. -/
theorem resolver_id_shortcircuit_spec :
    (∀ (env : List Ec2Instance) (token : String),
        py_startswith token "i-" = true →
          resolve_instance_identifier env token = (some token, false))
    ∧ _is_valid_instance_id "i-prod-db" = false
    ∧ (∀ env : List Ec2Instance,
        resolve_instance_identifier env "i-prod-db" = (some "i-prod-db", false)) := by
  refine ⟨?_, by decide, ?_⟩
  · intro env token h
    simp [resolve_instance_identifier, h]
  · intro env
    simp [resolve_instance_identifier,
      show py_startswith "i-prod-db" "i-" = true from by decide]

/-- Witness: `resolver_id_shortcircuit_spec` applied to the empty environment
and the malformed ID-shaped token `i-prod-db`. -/
theorem resolver_id_shortcircuit_spec_witness :
    resolve_instance_identifier [] "i-prod-db" = (some "i-prod-db", false) :=
  resolver_id_shortcircuit_spec.1 [] "i-prod-db" (by decide)

/-- Two strings with the same character data are equal. -/
theorem string_eq_of_data {a b : String} (h : a.data = b.data) : a = b := by
  cases a
  cases b
  simp only at h
  rw [h]

/-- Character data of an append is the append of the data. -/
theorem string_data_append (a b : String) : (a ++ b).data = a.data ++ b.data := by
  cases a
  cases b
  rfl

/-- C2: over the four lifecycle states, a start request on a controllable
instance with a determinable state reaches the provider's start call exactly
when the state is `stopped`; each other state is refused with its own audit
code and its own user reply containing the table's reason (`already running`,
`already starting`, `currently stopping` with `Cannot start`), all computed
by pure functions of the observed state. -/
theorem start_transition_spec :
    ∀ (s display_name instance_id : String),
      s ∈ VALID_LIFECYCLE_STATES →
        ((start_instance_check true (some s) = StartCheck.proceed) ↔ s = "stopped")
        ∧ (s = "running" →
            start_instance_check true (some s) = StartCheck.reject "already_running"
            ∧ power_on_failure_reply display_name instance_id s
                = "`" ++ display_name ++ "` (" ++ instance_id ++ ") is " ++ "already running"
            ∧ (∃ a : String,
                power_on_failure_reply display_name instance_id s = a ++ "already running"))
        ∧ (s = "pending" →
            start_instance_check true (some s) = StartCheck.reject "already_starting"
            ∧ power_on_failure_reply display_name instance_id s
                = "`" ++ display_name ++ "` (" ++ instance_id ++ ") is " ++ "already starting"
            ∧ (∃ a : String,
                power_on_failure_reply display_name instance_id s = a ++ "already starting"))
        ∧ (s = "stopping" →
            start_instance_check true (some s) = StartCheck.reject "currently_stopping"
            ∧ power_on_failure_reply display_name instance_id s
                = "Cannot start " ++ "`" ++ display_name ++ "` (" ++ instance_id
                    ++ ") - instance is " ++ "currently stopping"
            ∧ (∃ a : String,
                power_on_failure_reply display_name instance_id s = a ++ "currently stopping")
            ∧ (∃ b : String,
                power_on_failure_reply display_name instance_id s = "Cannot start " ++ b)) := by
  intro s display_name instance_id hs
  refine ⟨?_, ?_, ?_, ?_⟩
  · constructor
    · intro h
      by_contra hne
      fin_cases hs <;> simp_all [start_instance_check]
    · intro h
      subst h
      rfl
  · intro h
    subst h
    exact ⟨rfl, rfl,
      ⟨"`" ++ display_name ++ "` (" ++ instance_id ++ ") is ", rfl⟩⟩
  · intro h
    subst h
    exact ⟨rfl, rfl,
      ⟨"`" ++ display_name ++ "` (" ++ instance_id ++ ") is ", rfl⟩⟩
  · intro h
    subst h
    have he : power_on_failure_reply display_name instance_id "stopping"
        = "Cannot start " ++ "`" ++ display_name ++ "` (" ++ instance_id
            ++ ") - instance is " ++ "currently stopping" := rfl
    refine ⟨rfl, he, ?_, ?_⟩
    · exact ⟨"Cannot start " ++ "`" ++ display_name ++ "` (" ++ instance_id
        ++ ") - instance is ", he⟩
    · refine ⟨"`" ++ display_name ++ "` (" ++ instance_id ++ ") - instance is "
        ++ "currently stopping", ?_⟩
      rw [he]
      apply string_eq_of_data
      simp [string_data_append, List.append_assoc]

/-- Witness: `start_transition_spec` at state `stopping` for instance
`db-1` / `i-0abc`. -/
theorem start_transition_spec_witness :
    start_instance_check true (some "stopping") = StartCheck.reject "currently_stopping" :=
  ((start_transition_spec "stopping" "db-1" "i-0abc" (by decide)).2.2.2 rfl).1

/-- C7: `parse_time` maps `5am` to 05:00, `5:30pm` to 17:30, `17:00` to
17:00, `12am` to 00:00 and `12pm` to 12:00, and fails on the empty string,
`None`, `25:00`, `9:60am` and every whitespace-only input. -/
theorem parse_time_spec :
    parse_time (some "5am") = some ⟨5, 0⟩
    ∧ parse_time (some "5:30pm") = some ⟨17, 30⟩
    ∧ parse_time (some "17:00") = some ⟨17, 0⟩
    ∧ parse_time (some "12am") = some ⟨0, 0⟩
    ∧ parse_time (some "12pm") = some ⟨12, 0⟩
    ∧ parse_time (some "") = none
    ∧ parse_time none = none
    ∧ parse_time (some "25:00") = none
    ∧ parse_time (some "9:60am") = none
    ∧ (∀ s : String, (∀ c ∈ s.data, c.isWhitespace = true) → parse_time (some s) = none) := by
  refine ⟨by decide, by decide, by decide, by decide, by decide, by decide, rfl,
    by decide, by decide, ?_⟩
  intro s hws
  have hstrip : py_strip s = "" := by
    apply string_eq_of_data
    simp only [py_strip, chars_strip]
    rw [List.dropWhile_eq_nil_iff.mpr hws]
    rfl
  simp [parse_time, hstrip]

/-- Witness: `parse_time_spec`'s whitespace clause applied to a two-space
string. -/
theorem parse_time_spec_witness : parse_time (some "  ") = none :=
  parse_time_spec.2.2.2.2.2.2.2.2.2 "  " (by decide)

theorem find_tag_map_replace (l : List Ec2Tag) (t : Ec2Tag)
    (h : l.any (fun u => u.key == t.key) = true) :
    find_tag (l.map (fun u => if u.key == t.key then t else u)) t.key = some t.value := by
  induction l with
  | nil => simp at h
  | cons u l ih =>
    simp only [List.map_cons]
    by_cases hu : u.key = t.key
    · have hfu : (if (u.key == t.key) then t else u) = t := by simp [hu]
      rw [hfu]
      unfold find_tag
      rw [List.find?_cons_of_pos _ (by simp)]
      rfl
    · have hfu : (if (u.key == t.key) then t else u) = u := by simp [hu]
      rw [hfu]
      have h' : l.any (fun v => v.key == t.key) = true := by
        simp only [List.any_cons, Bool.or_eq_true] at h
        rcases h with h | h
        · exact absurd (by simpa using h) hu
        · exact h
      unfold find_tag
      rw [List.find?_cons_of_neg _ (by simp [hu])]
      exact ih h'

theorem find_tag_append_single (l : List Ec2Tag) (t : Ec2Tag)
    (h : l.any (fun u => u.key == t.key) = false) :
    find_tag (l ++ [t]) t.key = some t.value := by
  induction l with
  | nil =>
    unfold find_tag
    rw [List.nil_append, List.find?_cons_of_pos _ (by simp)]
    rfl
  | cons u l ih =>
    simp only [List.any_cons, Bool.or_eq_false_iff] at h
    unfold find_tag
    rw [List.cons_append, List.find?_cons_of_neg _ (by simpa using h.1)]
    exact ih h.2

/-- Reading the upserted key returns the upserted value. -/
theorem find_tag_upsert_self (store : List Ec2Tag) (t : Ec2Tag) :
    find_tag (upsert_tag store t) t.key = some t.value := by
  unfold upsert_tag
  by_cases h : store.any (fun u => u.key == t.key) = true
  · rw [if_pos h]
    exact find_tag_map_replace store t h
  · rw [if_neg (by simpa using h)]
    exact find_tag_append_single store t (by simpa using h)

theorem find_tag_map_replace_ne (l : List Ec2Tag) (t : Ec2Tag) (k : String) (hk : k ≠ t.key) :
    find_tag (l.map (fun u => if u.key == t.key then t else u)) k = find_tag l k := by
  induction l with
  | nil => rfl
  | cons u l ih =>
    simp only [List.map_cons]
    by_cases hu : u.key = t.key
    · have hfu : (if (u.key == t.key) then t else u) = t := by simp [hu]
      rw [hfu]
      unfold find_tag
      rw [List.find?_cons_of_neg _ (by simpa using Ne.symm hk),
        List.find?_cons_of_neg _ (by simp [hu]; exact Ne.symm hk)]
      exact ih
    · have hfu : (if (u.key == t.key) then t else u) = u := by simp [hu]
      rw [hfu]
      by_cases hq : u.key = k
      · unfold find_tag
        rw [List.find?_cons_of_pos _ (by simp [hq]), List.find?_cons_of_pos _ (by simp [hq])]
      · unfold find_tag
        rw [List.find?_cons_of_neg _ (by simpa using hq),
          List.find?_cons_of_neg _ (by simpa using hq)]
        exact ih

theorem find_tag_append_single_ne (l : List Ec2Tag) (t : Ec2Tag) (k : String) (hk : k ≠ t.key) :
    find_tag (l ++ [t]) k = find_tag l k := by
  induction l with
  | nil =>
    unfold find_tag
    rw [List.nil_append, List.find?_cons_of_neg _ (by simpa using Ne.symm hk)]
  | cons u l ih =>
    by_cases hq : u.key = k
    · unfold find_tag
      rw [List.cons_append, List.find?_cons_of_pos _ (by simp [hq]),
        List.find?_cons_of_pos _ (by simp [hq])]
    · unfold find_tag
      rw [List.cons_append, List.find?_cons_of_neg _ (by simpa using hq),
        List.find?_cons_of_neg _ (by simpa using hq)]
      exact ih

/-- Reading a key other than the upserted one is unchanged. -/
theorem find_tag_upsert_ne (store : List Ec2Tag) (t : Ec2Tag) (k : String) (hk : k ≠ t.key) :
    find_tag (upsert_tag store t) k = find_tag store k := by
  unfold upsert_tag
  by_cases h : store.any (fun u => u.key == t.key) = true
  · rw [if_pos h]
    exact find_tag_map_replace_ne store t k hk
  · rw [if_neg (by simpa using h)]
    exact find_tag_append_single_ne store t k hk

/-- Reading a deleted key finds nothing. -/
theorem find_tag_delete_self (store : List Ec2Tag) (k : String) :
    find_tag (delete_tag store k) k = none := by
  induction store with
  | nil => rfl
  | cons u l ih =>
    unfold delete_tag
    by_cases hu : u.key = k
    · rw [List.filter_cons_of_neg (by simp [hu])]
      exact ih
    · rw [List.filter_cons_of_pos (by simpa using hu)]
      unfold find_tag
      rw [List.find?_cons_of_neg _ (by simpa using hu)]
      exact ih

/-- C4: schedule set writes the two schedule keys only when `start < stop`
strictly; `start >= stop` is rejected with a reply naming both supplied time
strings and stating that cross-midnight schedules are unsupported, leaving
the tag store untouched. -/
theorem schedule_set_ordering_spec :
    ∀ (store : List Ec2Tag)
      (display_name instance_id start_time_str stop_time_str : String)
      (start_time stop_time : TimeOfDay),
      (time_lt start_time stop_time = false →
        handle_ec2_schedule_set store display_name instance_id start_time_str stop_time_str
            start_time stop_time
          = ("Invalid schedule: start time (" ++ start_time_str
              ++ ") must be before end time (" ++ stop_time_str ++ "). "
              ++ "Cross-midnight schedules are not supported.", store)
        ∧ (∃ a b : String,
            (handle_ec2_schedule_set store display_name instance_id start_time_str
                stop_time_str start_time stop_time).1 = a ++ start_time_str ++ b)
        ∧ (∃ a b : String,
            (handle_ec2_schedule_set store display_name instance_id start_time_str
                stop_time_str start_time stop_time).1 = a ++ stop_time_str ++ b)
        ∧ (∃ a : String,
            (handle_ec2_schedule_set store display_name instance_id start_time_str
                stop_time_str start_time stop_time).1
              = a ++ "Cross-midnight schedules are not supported."))
      ∧ (time_lt start_time stop_time = false ∨ can_control_instance (some store) = false →
          (handle_ec2_schedule_set store display_name instance_id start_time_str
              stop_time_str start_time stop_time).2 = store)
      ∧ (time_lt start_time stop_time = true ∧ can_control_instance (some store) = true →
          (handle_ec2_schedule_set store display_name instance_id start_time_str
              stop_time_str start_time stop_time).2
            = set_power_schedule_tags store (format_time_for_tag start_time)
                (format_time_for_tag stop_time)
          ∧ find_tag (handle_ec2_schedule_set store display_name instance_id start_time_str
                stop_time_str start_time stop_time).2 "PowerScheduleOnTime"
              = some (format_time_for_tag start_time)
          ∧ find_tag (handle_ec2_schedule_set store display_name instance_id start_time_str
                stop_time_str start_time stop_time).2 "PowerScheduleOffTime"
              = some (format_time_for_tag stop_time)) := by
  intro store display_name instance_id start_time_str stop_time_str start_time stop_time
  refine ⟨?_, ?_, ?_⟩
  · intro hlt
    have hge : time_ge start_time stop_time = true := by simp [time_ge, hlt]
    have he : handle_ec2_schedule_set store display_name instance_id start_time_str
        stop_time_str start_time stop_time
      = ("Invalid schedule: start time (" ++ start_time_str
          ++ ") must be before end time (" ++ stop_time_str ++ "). "
          ++ "Cross-midnight schedules are not supported.", store) := by
      simp [handle_ec2_schedule_set, hge]
    refine ⟨he, ?_, ?_, ?_⟩
    · refine ⟨"Invalid schedule: start time (",
        ") must be before end time (" ++ stop_time_str ++ "). "
          ++ "Cross-midnight schedules are not supported.", ?_⟩
      rw [he]
      apply string_eq_of_data
      simp [string_data_append, List.append_assoc]
    · refine ⟨"Invalid schedule: start time (" ++ start_time_str
          ++ ") must be before end time (",
        "). " ++ "Cross-midnight schedules are not supported.", ?_⟩
      rw [he]
      apply string_eq_of_data
      simp [string_data_append, List.append_assoc]
    · refine ⟨"Invalid schedule: start time (" ++ start_time_str
          ++ ") must be before end time (" ++ stop_time_str ++ "). ", ?_⟩
      rw [he]
  · intro h
    rcases h with hlt | hc
    · have hge : time_ge start_time stop_time = true := by simp [time_ge, hlt]
      simp [handle_ec2_schedule_set, hge]
    · by_cases hlt : time_lt start_time stop_time = true
      · have hge : time_ge start_time stop_time = false := by simp [time_ge, hlt]
        simp [handle_ec2_schedule_set, hge, hc]
      · have hge : time_ge start_time stop_time = true := by
          simp [time_ge]
          simpa using hlt
        simp [handle_ec2_schedule_set, hge]
  · intro ⟨hlt, hc⟩
    have hge : time_ge start_time stop_time = false := by simp [time_ge, hlt]
    have hs : set_schedule store start_time stop_time
        = (true,
          set_power_schedule_tags store (format_time_for_tag start_time)
            (format_time_for_tag stop_time)) := by
      simp [set_schedule, hc]
    have he : (handle_ec2_schedule_set store display_name instance_id start_time_str
        stop_time_str start_time stop_time).2
        = set_power_schedule_tags store (format_time_for_tag start_time)
            (format_time_for_tag stop_time) := by
      simp [handle_ec2_schedule_set, hge, hc, hs]
    refine ⟨he, ?_, ?_⟩
    · rw [he]
      unfold set_power_schedule_tags
      rw [find_tag_upsert_ne _ _ _
        (show ("PowerScheduleOnTime" : String) ≠ "PowerScheduleOffTime" from by decide)]
      exact find_tag_upsert_self store ⟨"PowerScheduleOnTime", format_time_for_tag start_time⟩
    · rw [he]
      exact find_tag_upsert_self _ ⟨"PowerScheduleOffTime", format_time_for_tag stop_time⟩

/-- Witness: `schedule_set_ordering_spec` rejecting the reversed pair
17:00 to 09:00 on an empty tag store. -/
theorem schedule_set_ordering_spec_witness :
    (handle_ec2_schedule_set [] "db-1" "i-0abc" "17:00" "9:00" ⟨17, 0⟩ ⟨9, 0⟩).2 = [] :=
  (schedule_set_ordering_spec [] "db-1" "i-0abc" "17:00" "9:00" ⟨17, 0⟩ ⟨9, 0⟩).2.1
    (Or.inl (by decide))

/-- C5 counterexample: a store holding only `PowerScheduleOnTime = 09:00`.
The off-time key is missing, yet `get_schedule` does not report "no
schedule": it returns a partial schedule holding only the start time. -/
theorem schedule_get_partial_counterexample :
    find_tag [⟨"PowerScheduleOnTime", "09:00"⟩] "PowerScheduleOffTime" = none
    ∧ get_schedule [⟨"PowerScheduleOnTime", "09:00"⟩]
        = some ⟨some "09:00", none⟩
    ∧ get_schedule [⟨"PowerScheduleOnTime", "09:00"⟩] ≠ none := by
  refine ⟨by decide, by decide, by decide⟩

/-- C5 amended: `get_schedule` reports "no schedule" exactly when both
schedule keys are missing; when at least one is present the result carries,
for each key, exactly the re-parsed value when it parses and nothing for that
key otherwise — so a partial schedule holding only one of the two times is
possible. -/
theorem schedule_get_amended_spec :
    ∀ store : List Ec2Tag,
      (get_schedule store = none ↔
        (find_tag store "PowerScheduleOnTime" = none
          ∧ find_tag store "PowerScheduleOffTime" = none))
      ∧ (∀ d : ScheduleDict, get_schedule store = some d →
          d.start_time = schedule_time_roundtrip (find_tag store "PowerScheduleOnTime")
          ∧ d.stop_time = schedule_time_roundtrip (find_tag store "PowerScheduleOffTime")) := by
  intro store
  by_cases h : find_tag store "PowerScheduleOnTime" = none
    ∧ find_tag store "PowerScheduleOffTime" = none
  · constructor
    · simp [get_schedule, get_power_schedule_tags, h]
    · intro d hd
      simp [get_schedule, get_power_schedule_tags, h] at hd
  · constructor
    · simp [get_schedule, get_power_schedule_tags, h]
    · intro d hd
      simp only [get_schedule, get_power_schedule_tags] at hd
      rw [if_neg h] at hd
      cases hd
      exact ⟨rfl, rfl⟩

/-- Witness: `schedule_get_amended_spec` evaluated on the one-key store of
the counterexample. -/
theorem schedule_get_amended_spec_witness :
    (some "09:00" : Option String)
      = schedule_time_roundtrip
          (find_tag [⟨"PowerScheduleOnTime", "09:00"⟩] "PowerScheduleOnTime") :=
  ((schedule_get_amended_spec [⟨"PowerScheduleOnTime", "09:00"⟩]).2
    ⟨some "09:00", none⟩ (by decide)).1

/-- C6: adding a caller already present reports `already_stakeholder` and
leaves the store unchanged; adding a distinct caller to a full list of 10
reports `max_limit_reached` without mutating; removing the sole remaining
member reports `removed_and_deleted_tag`, deletes the `Stakeholders` key, and
a subsequent read finds no stakeholder list. -/
theorem stakeholder_registry_spec :
    ∀ (store : List Ec2Tag) (user_id : String) (write_ok : Bool),
      ((current_stakeholders store).contains user_id = true →
        add_stakeholder store user_id write_ok = ((true, "already_stakeholder"), store))
      ∧ ((current_stakeholders store).contains user_id = false →
          (current_stakeholders store).length = 10 →
            add_stakeholder store user_id write_ok = ((false, "max_limit_reached"), store))
      ∧ (current_stakeholders store = [user_id] →
          remove_stakeholder store user_id true
            = ((true, "removed_and_deleted_tag"), delete_stakeholders_tag store)
          ∧ get_stakeholders_tag (remove_stakeholder store user_id true).2 = none
          ∧ current_stakeholders (remove_stakeholder store user_id true).2 = []) := by
  intro store user_id write_ok
  refine ⟨?_, ?_, ?_⟩
  · intro h
    have hm : user_id ∈ current_stakeholders store := by simpa using h
    simp [add_stakeholder, hm]
  · intro h hl
    have hm : user_id ∉ current_stakeholders store := by simpa using h
    simp [add_stakeholder, hm, hl]
  · intro h
    have hm : user_id ∈ current_stakeholders store := by simp [h]
    have hr : (current_stakeholders store).filter (fun s => s != user_id) = [] := by
      rw [h]
      simp
    have he : remove_stakeholder store user_id true
        = ((true, "removed_and_deleted_tag"), delete_stakeholders_tag store) := by
      simp [remove_stakeholder, hm, hr]
    refine ⟨he, ?_, ?_⟩
    · rw [he]
      exact find_tag_delete_self store "Stakeholders"
    · rw [he]
      simp only [current_stakeholders, get_stakeholders_tag, delete_stakeholders_tag]
      rw [find_tag_delete_self store "Stakeholders"]

/-- Witness: `stakeholder_registry_spec` removing the sole stakeholder
`alice` deletes the tag. -/
theorem stakeholder_registry_spec_witness :
    get_stakeholders_tag (remove_stakeholder [⟨"Stakeholders", "alice"⟩] "alice" true).2
      = none :=
  ((stakeholder_registry_spec [⟨"Stakeholders", "alice"⟩] "alice" true).2.2
    (by decide)).2.1

/-- C9 counterexample: `Foo` is neither a canonical action nor in any alias
set of the power map, yet `normalize_command` does not return it unchanged —
it returns the lower-casing `foo`. -/
theorem normalize_command_counterexample :
    (∀ p ∈ ACTION_ALIASES_POWER, "Foo" ≠ p.1 ∧ ¬ ("Foo" ∈ p.2))
    ∧ normalize_command "Foo" ACTION_ALIASES_POWER = "foo"
    ∧ normalize_command "Foo" ACTION_ALIASES_POWER ≠ "Foo" := by
  refine ⟨by decide, by decide, by decide⟩

/-- C9 amended: alias normalization lower-cases its input; on a word whose
lower-casing matches no canonical value and no alias set it returns that
lower-casing — the identity exactly on already lower-case unrecognized
words — and every word of every alias set of the power table (e.g. `start`,
`up`, `boot`, `poweron` in the `on` set, `stop` in the `off` set, `reboot`
in the `restart` set) is mapped to that set's canonical value. -/
theorem normalize_command_amended_spec :
    (∀ (value : String) (alias_map : List (String × List String)),
      alias_map.find? (fun p => py_lower value == p.1 || p.2.contains (py_lower value))
          = none →
        normalize_command value alias_map = py_lower value)
    ∧ (∀ (value : String) (alias_map : List (String × List String)),
        alias_map.find? (fun p => py_lower value == p.1 || p.2.contains (py_lower value))
            = none →
          py_lower value = value →
            normalize_command value alias_map = value)
    ∧ (∀ p : String × List String, p ∈ ACTION_ALIASES_POWER →
        ∀ w : String, w ∈ p.2 →
          normalize_command w ACTION_ALIASES_POWER = p.1) := by
  refine ⟨?_, ?_, ?_⟩
  · intro value alias_map h
    simp only [normalize_command]
    rw [h]
  · intro value alias_map h hself
    simp only [normalize_command]
    rw [h, hself]
  · decide

/-- Witness: `normalize_command_amended_spec` on the unrecognized lower-case
word `sideways` and on the alias `boot` of the `on` set. -/
theorem normalize_command_amended_spec_witness :
    normalize_command "sideways" ACTION_ALIASES_POWER = "sideways"
    ∧ normalize_command "boot" ACTION_ALIASES_POWER = "on" :=
  ⟨normalize_command_amended_spec.2.1 "sideways" ACTION_ALIASES_POWER (by decide) (by decide),
   normalize_command_amended_spec.2.2
     ("on", ["on", "start", "up", "boot", "poweron", "enable"]) (by decide) "boot" (by decide)⟩

theorem mem_ordered_insert {α : Type} (le : α → α → Bool) (a x : α) (l : List α)
    (h : x ∈ ordered_insert le a l) : x = a ∨ x ∈ l := by
  induction l with
  | nil => simpa [ordered_insert] using h
  | cons b t ih =>
    simp only [ordered_insert] at h
    by_cases hab : le a b = true
    · rw [if_pos hab] at h
      exact List.mem_cons.mp h
    · rw [if_neg hab] at h
      rcases List.mem_cons.mp h with h | h
      · exact Or.inr (List.mem_cons.mpr (Or.inl h))
      · rcases ih h with h | h
        · exact Or.inl h
        · exact Or.inr (List.mem_cons.mpr (Or.inr h))

theorem pairwise_ordered_insert {α : Type} (le : α → α → Bool)
    (htot : ∀ a b, le a b = true ∨ le b a = true)
    (htrans : ∀ a b c, le a b = true → le b c = true → le a c = true)
    (a : α) (l : List α) (h : l.Pairwise (fun x y => le x y = true)) :
    (ordered_insert le a l).Pairwise (fun x y => le x y = true) := by
  induction l with
  | nil => simp [ordered_insert]
  | cons b t ih =>
    rw [List.pairwise_cons] at h
    obtain ⟨hb, ht⟩ := h
    simp only [ordered_insert]
    by_cases hab : le a b = true
    · rw [if_pos hab, List.pairwise_cons]
      constructor
      · intro x hx
        rcases List.mem_cons.mp hx with hx | hx
        · rw [hx]
          exact hab
        · exact htrans a b x hab (hb x hx)
      · rw [List.pairwise_cons]
        exact ⟨hb, ht⟩
    · rw [if_neg hab, List.pairwise_cons]
      constructor
      · intro x hx
        rcases mem_ordered_insert le a x t hx with hx | hx
        · rw [hx]
          rcases htot a b with hh | hh
          · exact absurd hh hab
          · exact hh
        · exact hb x hx
      · exact ih ht

theorem pairwise_insertion_sort {α : Type} (le : α → α → Bool)
    (htot : ∀ a b, le a b = true ∨ le b a = true)
    (htrans : ∀ a b c, le a b = true → le b c = true → le a c = true)
    (l : List α) :
    (insertion_sort le l).Pairwise (fun x y => le x y = true) := by
  induction l with
  | nil => simp [insertion_sort]
  | cons a l ih => exact pairwise_ordered_insert le htot htrans a _ ih

/-- C8: the fuzzy search result holds at most 10 entries and is sorted by
`(rank, lowered name, lowered id)`: an exact match (rank 0) sits strictly
before a prefix-only match (rank 1), which sits strictly before a non-prefix
substring match (rank 2); among equal ranks a smaller lowered name comes
first, and among equal ranks and names a smaller lowered id comes first. -/
theorem fuzzy_search_ranking_spec :
    ∀ (env : List Ec2Instance) (search_term tl : String) (out : List SearchResult),
      tl = py_lower search_term →
      out = fuzzy_search_instances env search_term →
        out.length ≤ 10
        ∧ out.Pairwise (fun a b => fuzzy_sort_key tl a ≤ fuzzy_sort_key tl b)
        ∧ (∀ i j : Fin out.length,
            fuzzy_rank tl (out.get i) < fuzzy_rank tl (out.get j) → (i : Nat) < (j : Nat))
        ∧ (∀ i j : Fin out.length,
            fuzzy_rank tl (out.get i) = fuzzy_rank tl (out.get j) →
            chars_key (py_lower ((out.get i).name.getD ""))
                < chars_key (py_lower ((out.get j).name.getD "")) →
              (i : Nat) < (j : Nat))
        ∧ (∀ i j : Fin out.length,
            fuzzy_rank tl (out.get i) = fuzzy_rank tl (out.get j) →
            py_lower ((out.get i).name.getD "") = py_lower ((out.get j).name.getD "") →
            chars_key (py_lower (out.get i).instanceId)
                < chars_key (py_lower (out.get j).instanceId) →
              (i : Nat) < (j : Nat)) := by
  intro env search_term tl out htl hout
  have htot : ∀ a b, fuzzy_le tl a b = true ∨ fuzzy_le tl b a = true := by
    intro a b
    simp only [fuzzy_le, decide_eq_true_eq]
    exact le_total _ _
  have htrans : ∀ a b c,
      fuzzy_le tl a b = true → fuzzy_le tl b c = true → fuzzy_le tl a c = true := by
    intro a b c hab hbc
    simp only [fuzzy_le, decide_eq_true_eq] at hab hbc ⊢
    exact le_trans hab hbc
  have hS : (insertion_sort (fuzzy_le tl) (fuzzy_matches env tl)).Pairwise
      (fun a b => fuzzy_sort_key tl a ≤ fuzzy_sort_key tl b) := by
    have hp := pairwise_insertion_sort (fuzzy_le tl) htot htrans (fuzzy_matches env tl)
    exact hp.imp (fun h => of_decide_eq_true h)
  have hout_eq : out
      = (if 10 < (insertion_sort (fuzzy_le tl) (fuzzy_matches env tl)).length
          then (insertion_sort (fuzzy_le tl) (fuzzy_matches env tl)).take 10
          else insertion_sort (fuzzy_le tl) (fuzzy_matches env tl)) := by
    rw [hout, htl]
    rfl
  have hsub : out.Sublist (insertion_sort (fuzzy_le tl) (fuzzy_matches env tl)) := by
    rw [hout_eq]
    by_cases hl : 10 < (insertion_sort (fuzzy_le tl) (fuzzy_matches env tl)).length
    · rw [if_pos hl]
      exact List.take_sublist _ _
    · rw [if_neg hl]
  have hP : out.Pairwise (fun a b => fuzzy_sort_key tl a ≤ fuzzy_sort_key tl b) :=
    hS.sublist hsub
  have hlen : out.length ≤ 10 := by
    rw [hout_eq]
    by_cases hl : 10 < (insertion_sort (fuzzy_le tl) (fuzzy_matches env tl)).length
    · rw [if_pos hl]
      simp [List.length_take]
    · rw [if_neg hl]
      exact Nat.le_of_not_lt hl
  have hget : ∀ i j : Fin out.length, (i : Nat) < (j : Nat) →
      fuzzy_sort_key tl (out.get i) ≤ fuzzy_sort_key tl (out.get j) := by
    intro i j hij
    exact List.pairwise_iff_get.mp hP i j hij
  have hkey : ∀ a b : SearchResult,
      fuzzy_sort_key tl a ≤ fuzzy_sort_key tl b ↔
        (fuzzy_rank tl a < fuzzy_rank tl b
          ∨ (fuzzy_rank tl a = fuzzy_rank tl b
              ∧ (chars_key (py_lower (a.name.getD "")) < chars_key (py_lower (b.name.getD ""))
                ∨ (chars_key (py_lower (a.name.getD ""))
                      = chars_key (py_lower (b.name.getD ""))
                    ∧ chars_key (py_lower a.instanceId)
                        ≤ chars_key (py_lower b.instanceId))))) := by
    intro a b
    simp only [fuzzy_sort_key, Prod.Lex.le_iff]
  refine ⟨hlen, hP, ?_, ?_, ?_⟩
  · intro i j hr
    rcases Nat.lt_trichotomy (i : Nat) (j : Nat) with h | h | h
    · exact h
    · have hf : i = j := Fin.ext h
      rw [hf] at hr
      exact absurd hr (lt_irrefl _)
    · have hle := hget j i h
      rw [hkey] at hle
      rcases hle with hlt | ⟨heq, _⟩
      · exact absurd (lt_trans hr hlt) (lt_irrefl _)
      · rw [heq] at hr
        exact absurd hr (lt_irrefl _)
  · intro i j hr hn
    rcases Nat.lt_trichotomy (i : Nat) (j : Nat) with h | h | h
    · exact h
    · have hf : i = j := Fin.ext h
      rw [hf] at hn
      exact absurd hn (lt_irrefl _)
    · have hle := hget j i h
      rw [hkey] at hle
      rcases hle with hlt | ⟨heq, hinner⟩
      · rw [hr] at hlt
        exact absurd hlt (lt_irrefl _)
      · rcases hinner with hh | ⟨hh, _⟩
        · exact absurd (lt_trans hn hh) (lt_irrefl _)
        · rw [hh] at hn
          exact absurd hn (lt_irrefl _)
  · intro i j hr hn hid
    rcases Nat.lt_trichotomy (i : Nat) (j : Nat) with h | h | h
    · exact h
    · have hf : i = j := Fin.ext h
      rw [hf] at hid
      exact absurd hid (lt_irrefl _)
    · have hle := hget j i h
      rw [hkey] at hle
      rcases hle with hlt | ⟨heq, hinner⟩
      · rw [hr] at hlt
        exact absurd hlt (lt_irrefl _)
      · rcases hinner with hh | ⟨hh, hle2⟩
        · have hck : chars_key (py_lower ((out.get i).name.getD ""))
              = chars_key (py_lower ((out.get j).name.getD "")) := by rw [hn]
          rw [hck] at hh
          exact absurd hh (lt_irrefl _)
        · exact absurd (lt_of_lt_of_le hid hle2) (lt_irrefl _)

/-- Witness: `fuzzy_search_ranking_spec` on a two-instance environment where
`db` names one instance exactly and prefixes the other's name: the result
list is capped at 10 and the exact match comes strictly first. -/
theorem fuzzy_search_ranking_spec_witness :
    (fuzzy_search_instances
      [⟨"i-aaaaaaaa", "stopped", [⟨"Name", "db-1"⟩, ⟨"EC2ControlsEnabled", "true"⟩]⟩,
       ⟨"i-bbbbbbbb", "running", [⟨"Name", "db"⟩, ⟨"EC2ControlsEnabled", "1"⟩]⟩]
      "db").length ≤ 10
    ∧ (0 : Nat) < 1 :=
  ⟨(fuzzy_search_ranking_spec
      [⟨"i-aaaaaaaa", "stopped", [⟨"Name", "db-1"⟩, ⟨"EC2ControlsEnabled", "true"⟩]⟩,
       ⟨"i-bbbbbbbb", "running", [⟨"Name", "db"⟩, ⟨"EC2ControlsEnabled", "1"⟩]⟩]
      "db" (py_lower "db") _ rfl rfl).1,
   (fuzzy_search_ranking_spec
      [⟨"i-aaaaaaaa", "stopped", [⟨"Name", "db-1"⟩, ⟨"EC2ControlsEnabled", "true"⟩]⟩,
       ⟨"i-bbbbbbbb", "running", [⟨"Name", "db"⟩, ⟨"EC2ControlsEnabled", "1"⟩]⟩]
      "db" (py_lower "db") _ rfl rfl).2.2.1 ⟨0, by decide⟩ ⟨1, by decide⟩ (by decide)⟩
